import Mathlib

/-!
# Verification of the `sloghandler` log sink

Shallow embedding of `src/log.go` (package `sloghandler`).  The file
`src/log.go` contains two revisions of the handler separated by a document
separator; the embedding below follows the first revision (the one with a
`timeFormat` field and empty-key filtering), which is the revision the test
file `log_test.go` compiles against (three-argument constructor,
`DefaultTimeFormat`).  Where the older second revision differs in a way that
matters to a property, the difference is noted at the relevant definition.

Modelling choices, each tied to a line of the Go source:

* `slog.Attr` values are rendered by `fmt.Sprintf("%v", a.Value)`, which
  dispatches to `log/slog`'s `Value.String` — code external to this
  repository.  A `Value` is therefore modelled by the text `%v` produces
  for it.
* `[]slog.Attr` is a Go slice: a view (pointer, length, capacity) into a
  backing array.  `WithAttrs` calls the built-in `append`, whose semantics
  ("if the capacity of s is not large enough a new underlying array is
  allocated; otherwise the destination is resliced in place") we model
  exactly, over an explicit heap of backing arrays, with the gc runtime's
  growth policy for small slices (capacity doubling).
* `sync.RWMutex` / `sync.Mutex` are modelled by a lock identifier.  The
  first revision's `WithAttrs`/`WithGroup` copy the mutex by VALUE
  (`mu: h.mu` in a composite literal); a copied (unlocked) mutex is an
  independent mutex, so the derived handler receives a fresh lock
  identifier.  The second revision writes `mu: sync.Mutex{}` explicitly,
  with the same effect.
* `time.Time.Format` is `time` stdlib code external to the repository; it is
  a pure function of the layout string and the instant, modelled as a
  function parameter `fmtTime : String → Nat → String` (instants are
  abstract).
* `h.writer.Write` is the caller-supplied destination, modelled by a
  function `write : String → Except String Unit` reporting success or the
  error text.  `Handle` is modelled as the trace it produces: its return
  value, the list of buffers handed to `Write`, and whether `mu.Lock` was
  reached.
-/

namespace Sloghandler

/-- Textual rendering of a `slog.Value`, i.e. what `fmt.Sprintf("%v", v)`
produces for it (dispatching to `log/slog.Value.String`, external to this
repository). -/
structure Value where
  text : String
deriving DecidableEq, Repr

/-- `slog.Attr`: a key and a value. -/
structure Attr where
  key : String
  value : Value
deriving DecidableEq, Repr

/-- Zero `slog.Attr`, used only as padding for unwritten backing-array
slots beyond a slice's length. -/
def dummyAttr : Attr := ⟨"", ⟨""⟩⟩

/-- A Go slice header for `[]slog.Attr`: backing-array address, length and
capacity.  The nil slice is `⟨0, 0, 0⟩` (its address is never read, since
its capacity admits no in-place write). -/
structure Slice where
  arr : Nat
  len : Nat
  cap : Nat
deriving DecidableEq, Repr

/-- The heap of backing arrays; an address is an index into the list and
each array is stored at its full capacity (padded with `dummyAttr`). -/
abbrev Heap := List (List Attr)

def nilSlice : Slice := ⟨0, 0, 0⟩

/-- The elements a slice views: the first `len` slots of its backing
array. -/
def sliceList (hp : Heap) (s : Slice) : List Attr :=
  (hp.getD s.arr []).take s.len

/-- Overwrite `l` in place starting at position `i` with the elements of
`xs` (the in-place half of Go's `append`). -/
def writeAt (l : List α) (i : Nat) (xs : List α) : List α :=
  l.take i ++ xs ++ l.drop (i + xs.length)

/-- The gc runtime's slice-growth policy for small slices: double the
capacity, unless even that is too small, in which case take exactly what is
needed. -/
def growCap (cap needed : Nat) : Nat :=
  if 2 * cap < needed then needed else 2 * cap

/-- Go's built-in `append(s, xs...)` for `[]slog.Attr`.  If the capacity
suffices, the new elements are written into the existing backing array and
the same array is resliced; otherwise a fresh backing array is allocated
holding a copy of the viewed elements followed by `xs`. -/
def goAppend (hp : Heap) (s : Slice) (xs : List Attr) : Slice × Heap :=
  let needed := s.len + xs.length
  if needed ≤ s.cap then
    (⟨s.arr, needed, s.cap⟩, hp.set s.arr (writeAt (hp.getD s.arr []) s.len xs))
  else
    let newcap := growCap s.cap needed
    let newarr := sliceList hp s ++ xs ++ List.replicate (newcap - needed) dummyAttr
    (⟨hp.length, needed, newcap⟩, hp ++ [newarr])

/-- Allocation state threaded through the operations that create backing
arrays or mutexes: the heap of `[]slog.Attr` backing arrays and the next
unused lock identifier. -/
structure GoState where
  heap : Heap
  nextLock : Nat
deriving DecidableEq, Repr

/-- `LogFormatHandler` (first revision of `src/log.go`): minimum level,
destination writer (by identity), fixed attributes (a Go slice), group
name, timestamp layout, and the mutex (by identity). -/
structure Handler where
  level : Int
  writerId : Nat
  attrs : Slice
  group : String
  timeFormat : String
  lockId : Nat
deriving DecidableEq, Repr

/-- `const DefaultTimeFormat = "2006/01/02 15:04:05"` — the Go reference
layout denoting `YYYY/MM/DD hh:mm:ss` on a 24-hour clock (`15` is the
24-hour hour field). -/
def DefaultTimeFormat : String := "2006/01/02 15:04:05"

/-- `NewLogFormatHandler(level, writer, timeFormat)`: substitutes
`DefaultTimeFormat` for an empty `timeFormat`, leaves `attrs` and `group`
at their zero values (nil slice, empty string), and takes the zero value of
the embedded `sync.RWMutex` — a fresh mutex. -/
def NewLogFormatHandler (level : Int) (writerId : Nat) (timeFormat : String)
    (s : GoState) : Handler × GoState :=
  let tf := if timeFormat = "" then DefaultTimeFormat else timeFormat
  (⟨level, writerId, nilSlice, "", tf, s.nextLock⟩, ⟨s.heap, s.nextLock + 1⟩)

/-- `WithAttrs`: `newAttrs := append(h.attrs, attrs...)`, then a composite
literal copying every field.  `mu: h.mu` copies the `sync.RWMutex` by
value; the copy is an independent mutex, hence the fresh lock identifier.
(The second revision writes `mu: sync.Mutex{}`, also a fresh mutex.) -/
def WithAttrs (h : Handler) (attrs : List Attr) (s : GoState) : Handler × GoState :=
  let (newAttrs, hp) := goAppend s.heap h.attrs attrs
  (⟨h.level, h.writerId, newAttrs, h.group, h.timeFormat, s.nextLock⟩,
   ⟨hp, s.nextLock + 1⟩)

/-- `WithGroup`: composite literal replacing `group` with `name`; `mu: h.mu`
copies the mutex by value, hence the fresh lock identifier. -/
def WithGroup (h : Handler) (name : String) (s : GoState) : Handler × GoState :=
  (⟨h.level, h.writerId, h.attrs, name, h.timeFormat, s.nextLock⟩,
   ⟨s.heap, s.nextLock + 1⟩)

/-- `fmt`'s `%+d` verb on a `slog.Level` offset: always a sign. -/
def fmtPlus (n : Int) : String :=
  if 0 ≤ n then "+" ++ toString n else toString n

/-- The inner closure of `log/slog.Level.String`: the base name, with a
signed offset appended when nonzero. -/
def levelStr (base : String) (val : Int) : String :=
  if val = 0 then base else base ++ fmtPlus val

/-- `log/slog.Level.String` (external stdlib code the repository calls):
levels Debug, Info, Warn, Error are -4, 0, 4, 8. -/
def LevelString (l : Int) : String :=
  if l < 0 then levelStr ("DEBUG") (l + 4)
  else if l < 4 then levelStr ("INFO") l
  else if l < 8 then levelStr ("WARN") (l - 4)
  else levelStr ("ERROR") (l - 8)

/-- One character of `strings.ToUpper`: ASCII lower-case letters map to
upper case.  (Go's `strings.ToUpper` is Unicode-aware, but the handler only
applies it to the output of `Level.String`, which is ASCII, where the two
agree.) -/
def upperChar (c : Char) : Char :=
  if 97 ≤ c.toNat ∧ c.toNat ≤ 122 then Char.ofNat (c.toNat - 32) else c

/-- `strings.ToUpper` on the ASCII strings the handler feeds it. -/
def toUpper (s : String) : String :=
  ⟨s.data.map upperChar⟩

/-- `context.Context`: opaque to the handler, which never inspects it. -/
structure Context where
  id : Nat
deriving DecidableEq, Repr

/-- `slog.Record`: timestamp (abstract instant), level, message, and the
per-event attributes in the order `r.Attrs` yields them. -/
structure Record where
  time : Nat
  level : Int
  message : String
  attrs : List Attr
deriving DecidableEq, Repr

/-- The attribute-appending loops of `Handle`: for each attribute, if its
key is non-empty, append `fmt.Sprintf(" %s=%v", a.Key, a.Value)` to the
buffer.  (Both the `r.Attrs` callback and the `h.attrs` loop of the first
revision have this shape; the second revision omits the key test.) -/
def appendAttrs (l : List Attr) (buf : String) : String :=
  l.foldl (fun b a => if a.key ≠ "" then b ++ " " ++ a.key ++ "=" ++ a.value.text else b) buf

/-- The buffer `Handle` builds for an admitted record: timestamp, space,
upper-cased level, space, optional `[group] ` segment, message, per-event
attributes, handler attributes, newline.  `strings.ToUpper` is Unicode in
Go but its argument here is the ASCII output of `Level.String`, on which
ASCII upper-casing coincides with it. -/
def formatLine (fmtTime : String → Nat → String) (hp : Heap) (h : Handler)
    (r : Record) : String :=
  let buf := fmtTime h.timeFormat r.time ++ " " ++ toUpper (LevelString r.level) ++ " "
  let buf := if h.group ≠ "" then buf ++ "[" ++ h.group ++ "] " else buf
  let buf := buf ++ r.message
  let buf := appendAttrs r.attrs buf
  let buf := appendAttrs (sliceList hp h.attrs) buf
  buf ++ "\n"

instance : DecidableEq (Except String Unit)
  | .ok (), .ok () => isTrue rfl
  | .ok (), .error _ => isFalse (fun h => by cases h)
  | .error _, .ok () => isFalse (fun h => by cases h)
  | .error a, .error b =>
    if h : a = b then isTrue (by rw [h]) else isFalse (fun he => by cases he; exact h rfl)

/-- The observable trace of one `Handle` call: its return value, the
buffers passed to `writer.Write` (in order), and whether `h.mu.Lock()` was
reached. -/
structure HandleTrace where
  result : Except String Unit
  written : List String
  locked : Bool
deriving DecidableEq, Repr

/-- `Handle`: below-threshold records return nil at once (no buffer, no
lock); otherwise the line is formatted, the mutex is taken, and the single
`Write` either succeeds (return nil) or fails (return
`fmt.Errorf("failed to write log: %w", err)`, rendered as the prefixed
message). -/
def Handle (fmtTime : String → Nat → String) (hp : Heap) (h : Handler)
    (_ctx : Context) (r : Record) (write : String → Except String Unit) : HandleTrace :=
  if r.level < h.level then ⟨.ok (), [], false⟩
  else
    let line := formatLine fmtTime hp h r
    match write line with
    | .error e => ⟨.error ("failed to write log: " ++ e), [line], true⟩
    | .ok _ => ⟨.ok (), [line], true⟩

/-- `Enabled`: `level >= h.level`, under a balanced `RLock`/`RUnlock` pair
that mutates nothing (the second revision has no lock here at all). -/
def Enabled (h : Handler) (_ctx : Context) (level : Int) : Bool :=
  decide (h.level ≤ level)

/-!
## Interleaving semantics for concurrent `Handle` calls

Each concurrent `Handle` call on an admitted record, once its buffer is
built, executes `mu.Lock(); writer.Write(buf); mu.Unlock()`.  The lock a
thread takes is the mutex of the handler it was called on.  The
destination's write is not assumed atomic (the spec attributes the
non-interleaving guarantee solely to the lock), so while a thread holds its
lock its buffer is transferred byte by byte; threads holding DIFFERENT
locks may have their byte transfers interleaved by the scheduler, while the
lock forbids two holders of the SAME mutex from overlapping.
-/

/-- Progress of one `Handle` call's write section. -/
inductive Phase
  | ready
  | locked
  | done
deriving DecidableEq, Repr

/-- One concurrent `Handle` call after formatting: the mutex of its
handler, its formatted buffer, how many bytes it has written, and its
phase. -/
structure Thread where
  lockId : Nat
  buf : List Char
  written : Nat
  phase : Phase
deriving DecidableEq, Repr

/-- Global state: the threads, the set of held lock identifiers, and the
bytes so far appended to the shared destination. -/
structure Sys where
  threads : List Thread
  held : List Nat
  output : List Char
deriving DecidableEq, Repr

/-- A scheduler choice: which thread performs its next `Lock`, single byte
of `Write`, or `Unlock`. -/
inductive Act
  | acquire (i : Nat)
  | writeByte (i : Nat)
  | release (i : Nat)
deriving DecidableEq, Repr

/-- Small-step semantics: `none` when the chosen thread cannot take that
step (e.g. its mutex is held by another thread). -/
def doAct (s : Sys) (a : Act) : Option Sys :=
  match a with
  | .acquire i =>
    match s.threads[i]? with
    | some t =>
      if t.phase = .ready ∧ ¬ s.held.contains t.lockId then
        some ⟨s.threads.set i ⟨t.lockId, t.buf, t.written, .locked⟩,
              t.lockId :: s.held, s.output⟩
      else none
    | none => none
  | .writeByte i =>
    match s.threads[i]? with
    | some t =>
      match t.buf[t.written]? with
      | some c =>
        if t.phase = .locked then
          some ⟨s.threads.set i ⟨t.lockId, t.buf, t.written + 1, .locked⟩,
                s.held, s.output ++ [c]⟩
        else none
      | none => none
    | none => none
  | .release i =>
    match s.threads[i]? with
    | some t =>
      if t.phase = .locked ∧ t.written = t.buf.length then
        some ⟨s.threads.set i ⟨t.lockId, t.buf, t.written, .done⟩,
              s.held.erase t.lockId, s.output⟩
      else none
    | none => none

/-- Run a schedule from a state. -/
def run (s : Sys) (acts : List Act) : Option Sys :=
  acts.foldl (fun os a => os.bind (fun s => doAct s a)) (some s)

/-- All threads have completed their write sections. -/
def allFinished (s : Sys) : Bool :=
  s.threads.all (fun t => t.phase = .done)

/-!
## Concrete derivation traces

`exParent`/`exChild`: a root handler and a group derivation, used to
exhibit the lock each one holds.

`sib*`: the `append` aliasing scenario.  Three single-attribute
`WithAttrs` derivations leave `sibParent` with a slice of length 3 in a
backing array of capacity 4 (the doubling growth); the two sibling
derivations `sibChild1` and `sibChild2` then both append their attribute
in place into slot 3 of that shared array.
-/

/-- A time-format function (model of `time.Time.Format`) rendering every
instant as `"T"`; the properties exhibited below do not depend on it. -/
def tinyTime : String → Nat → String := fun _ _ => "T"

def attr (k v : String) : Attr := ⟨k, ⟨v⟩⟩

def state0 : GoState := ⟨[], 0⟩

def exParent : Handler × GoState := NewLogFormatHandler 0 0 ("") state0

def exChild : Handler × GoState := WithGroup exParent.1 ("g") exParent.2

def sibH1 : Handler × GoState := WithAttrs exParent.1 [attr ("k1") ("v1")] exParent.2

def sibH2 : Handler × GoState := WithAttrs sibH1.1 [attr ("k2") ("v2")] sibH1.2

def sibParent : Handler × GoState := WithAttrs sibH2.1 [attr ("k3") ("v3")] sibH2.2

def sibChild1 : Handler × GoState := WithAttrs sibParent.1 [attr ("k4") ("v4")] sibParent.2

def sibChild2 : Handler × GoState := WithAttrs sibParent.1 [attr ("k5") ("v5")] sibChild1.2

/-- A writer that always succeeds. -/
def okWrite : String → Except String Unit := fun _ => .ok ()

def exRecord : Record := ⟨0, 0, "m", []⟩

/-- Two concurrent admitted `Handle` calls, one on `exParent` and one on
`exChild`, after both have built their buffers: each thread carries its
handler's mutex identifier and formatted line. -/
def exSys : Sys :=
  ⟨[⟨exParent.1.lockId, (formatLine tinyTime exChild.2.heap exParent.1 exRecord).data, 0, .ready⟩,
    ⟨exChild.1.lockId, (formatLine tinyTime exChild.2.heap exChild.1 exRecord).data, 0, .ready⟩],
   [], []⟩

/-- A schedule in which both threads take their (distinct) locks, each
writes its first byte, then each finishes: legal because the two mutexes
are different objects. -/
def exSchedule : List Act :=
  [.acquire 0, .acquire 1, .writeByte 0, .writeByte 1] ++
    List.replicate 8 (Act.writeByte 0) ++ [.release 0] ++
    List.replicate 12 (Act.writeByte 1) ++ [.release 1]

/-!
## Rendering refinement

`specAttrs` restates the spec's attribute-rendering contract independently
of the code's buffer-threaded fold: each attribute with a non-empty key
contributes one ` key=value` segment, in order; empty-keyed attributes
contribute nothing.  `appendAttrs_spec` proves the code's fold refines it.
-/

def specAttrs : List Attr → String
  | [] => ""
  | a :: t => (if a.key = "" then "" else " " ++ a.key ++ "=" ++ a.value.text) ++ specAttrs t

lemma appendAttrs_spec (l : List Attr) (buf : String) :
    appendAttrs l buf = buf ++ specAttrs l := by
  induction l generalizing buf with
  | nil => simp [appendAttrs, specAttrs, String.append_empty]
  | cons a t ih =>
    by_cases hk : a.key = ""
    · have h1 : appendAttrs (a :: t) buf = appendAttrs t buf := by
        simp [appendAttrs, hk]
      rw [h1, ih, specAttrs]
      simp [hk, String.empty_append]
    · have h1 : appendAttrs (a :: t) buf
          = appendAttrs t (buf ++ " " ++ a.key ++ "=" ++ a.value.text) := by
        simp [appendAttrs, hk]
      rw [h1, ih, specAttrs]
      simp [hk, String.append_assoc]

lemma appendAttrs_append (l1 l2 : List Attr) (buf : String) :
    appendAttrs (l1 ++ l2) buf = appendAttrs l2 (appendAttrs l1 buf) := by
  simp [appendAttrs, List.foldl_append]

lemma appendAttrs_emptyKey (a : Attr) (ha : a.key = "") (l : List Attr) (buf : String) :
    appendAttrs (a :: l) buf = appendAttrs l buf := by
  simp [appendAttrs, ha]

/-- The line `Handle` builds, re-expressed against the spec's segment
structure: timestamp, space, upper-cased level, space, conditional group
segment, message, per-event attributes, chain attributes, newline. -/
lemma formatLine_spec (fmtTime : String → Nat → String) (hp : Heap) (h : Handler)
    (r : Record) :
    formatLine fmtTime hp h r =
      fmtTime h.timeFormat r.time ++ " " ++ toUpper (LevelString r.level) ++ " "
        ++ (if h.group = "" then "" else "[" ++ h.group ++ "] ")
        ++ r.message ++ specAttrs r.attrs ++ specAttrs (sliceList hp h.attrs) ++ "\n" := by
  unfold formatLine
  by_cases hg : h.group = ""
  · simp [hg, appendAttrs_spec, String.append_assoc, String.append_empty]
  · simp [hg, appendAttrs_spec, String.append_assoc]
    rfl

/-!
## The claims
-/

/-- C1: REFUTED on the code — `WithAttrs` appends into the parent's
backing array when it has spare capacity, so sibling derivations alias.
After three single-attribute derivations the handler `sibParent` views
3 elements of a capacity-4 array; the sibling derivations `sibChild1`
(adding `k4=v4`) and `sibChild2` (adding `k5=v5`, created later) both
write slot 3 of that shared array, so a `Handle` call on `sibChild1`
renders the sibling's `k5=v5` instead of its own `k4=v4`.  (The parent
itself, whose length never changes, still renders only `k1..k3`.) -/
theorem withAttrs_sibling_aliasing :
    sliceList sibChild2.2.heap sibChild1.1.attrs
        = [attr ("k1") ("v1"), attr ("k2") ("v2"), attr ("k3") ("v3"), attr ("k5") ("v5")] ∧
    (Handle tinyTime sibChild2.2.heap sibChild1.1 ⟨0⟩ exRecord okWrite).written
        = ["T INFO m k1=v1 k2=v2 k3=v3 k5=v5\n"] ∧
    (Handle tinyTime sibChild2.2.heap sibParent.1 ⟨0⟩ exRecord okWrite).written
        = ["T INFO m k1=v1 k2=v2 k3=v3\n"] := by
  decide

/-- C2: REFUTED on the code — `WithAttrs` and `WithGroup` copy the
`sync.RWMutex` by VALUE (`mu: h.mu`; the second revision of the source
even writes `mu: sync.Mutex{}`), so every derivation holds its own mutex,
not the root's: no two members of a derivation family share a lock. -/
theorem derived_lock_not_shared :
    exChild.1.lockId ≠ exParent.1.lockId ∧
    sibChild1.1.lockId ≠ sibParent.1.lockId ∧
    sibChild1.1.lockId ≠ sibChild2.1.lockId := by
  decide

/-- C3: REFUTED on the code — because parent and child hold distinct
mutexes (see `mu: h.mu`), the scheduler can run both write sections
simultaneously; `exSchedule` is a legal schedule of two concurrent
admitted `Handle` calls (one on `exParent`, one on `exChild`) that runs to
completion yet leaves the destination holding an interleaving of the two
buffers — not equal to either concatenation of the two complete lines,
and with a garbled first line. -/
theorem concurrent_family_writes_interleave :
    (run exSys exSchedule).map Sys.output = some ("TT INFO m\n INFO [g] m\n").data ∧
    (run exSys exSchedule).map allFinished = some true ∧
    "TT INFO m\n INFO [g] m\n"
        ≠ formatLine tinyTime exChild.2.heap exParent.1 exRecord
            ++ formatLine tinyTime exChild.2.heap exChild.1 exRecord ∧
    "TT INFO m\n INFO [g] m\n"
        ≠ formatLine tinyTime exChild.2.heap exChild.1 exRecord
            ++ formatLine tinyTime exChild.2.heap exParent.1 exRecord := by
  decide

/-- C4: for every admitted record, the single buffer `Handle` hands to the
destination is exactly timestamp (rendered with `timeFormat`), a space, the
upper-cased level name, a space, the `[group] ` segment only when the group
is non-empty, the message, the per-event attributes in event order, then
the chain attributes in chain order — each as ` key=value` with no trailing
separator — and one final newline.  Determinism is inherent: `Handle` is a
function of its arguments, so identical inputs yield identical bytes. -/
theorem handle_format_contract (fmtTime : String → Nat → String) (hp : Heap)
    (h : Handler) (ctx : Context) (r : Record) (write : String → Except String Unit)
    (hlv : h.level ≤ r.level) :
    (Handle fmtTime hp h ctx r write).written =
      [fmtTime h.timeFormat r.time ++ " " ++ toUpper (LevelString r.level) ++ " "
        ++ (if h.group = "" then "" else "[" ++ h.group ++ "] ")
        ++ r.message ++ specAttrs r.attrs ++ specAttrs (sliceList hp h.attrs) ++ "\n"] := by
  unfold Handle
  rw [if_neg (not_lt.mpr hlv)]
  rcases hw : write (formatLine fmtTime hp h r) with e | u <;>
    simp only [hw] <;> simp [formatLine_spec]

/-- C4 witness: the contract at a concrete admitted record. -/
theorem handle_format_contract_witness :
    (Handle tinyTime [] exParent.1 ⟨0⟩ exRecord okWrite).written =
      [tinyTime exParent.1.timeFormat exRecord.time ++ " "
        ++ toUpper (LevelString exRecord.level) ++ " "
        ++ (if exParent.1.group = "" then "" else "[" ++ exParent.1.group ++ "] ")
        ++ exRecord.message ++ specAttrs exRecord.attrs
        ++ specAttrs (sliceList [] exParent.1.attrs) ++ "\n"] :=
  handle_format_contract tinyTime [] exParent.1 ⟨0⟩ exRecord okWrite (by decide)

/-- C5: an attribute with an empty key is skipped entirely, never an
error: a `Handle` call on a record containing an empty-keyed attribute
produces exactly the trace (result, bytes, locking) of the same record
without it, and the attribute-rendering fold — which is also how the
chain (`fixedAttributes`) attributes are rendered — is insensitive to
empty-keyed entries wherever they occur. -/
theorem handle_empty_key_skipped (fmtTime : String → Nat → String) (hp : Heap)
    (h : Handler) (ctx : Context) (write : String → Except String Unit)
    (t : Nat) (lv : Int) (msg : String) (l1 l2 : List Attr) (a : Attr) (buf : String)
    (ha : a.key = "") :
    Handle fmtTime hp h ctx ⟨t, lv, msg, l1 ++ a :: l2⟩ write
        = Handle fmtTime hp h ctx ⟨t, lv, msg, l1 ++ l2⟩ write ∧
    appendAttrs (l1 ++ a :: l2) buf = appendAttrs (l1 ++ l2) buf := by
  have happ : ∀ b : String, appendAttrs (l1 ++ a :: l2) b = appendAttrs (l1 ++ l2) b := by
    intro b
    rw [appendAttrs_append, appendAttrs_append, appendAttrs_emptyKey a ha]
  refine ⟨?_, happ buf⟩
  have hline : formatLine fmtTime hp h ⟨t, lv, msg, l1 ++ a :: l2⟩
      = formatLine fmtTime hp h ⟨t, lv, msg, l1 ++ l2⟩ := by
    unfold formatLine
    simp only [happ]
  unfold Handle
  simp only [hline]

/-- C5 witness: a concrete record whose middle attribute has an empty
key renders exactly as the record without it. -/
theorem handle_empty_key_skipped_witness :
    Handle tinyTime [] exParent.1 ⟨0⟩
        ⟨0, 0, "m", [attr ("x") ("1")] ++ attr ("") ("z") :: [attr ("y") ("2")]⟩ okWrite
      = Handle tinyTime [] exParent.1 ⟨0⟩
          ⟨0, 0, "m", [attr ("x") ("1")] ++ [attr ("y") ("2")]⟩ okWrite ∧
    appendAttrs ([attr ("x") ("1")] ++ attr ("") ("z") :: [attr ("y") ("2")]) ("")
      = appendAttrs ([attr ("x") ("1")] ++ [attr ("y") ("2")]) ("") :=
  handle_empty_key_skipped tinyTime [] exParent.1 ⟨0⟩ okWrite 0 0 ("m")
    [attr ("x") ("1")] [attr ("y") ("2")] (attr ("") ("z")) ("") (by decide)

/-- C6: a record below the threshold makes `Handle` return success
immediately: nothing is handed to the destination's `Write` (zero bytes
written), and `mu.Lock()` is never reached. -/
theorem handle_below_threshold_noop (fmtTime : String → Nat → String) (hp : Heap)
    (h : Handler) (ctx : Context) (r : Record) (write : String → Except String Unit)
    (hlv : r.level < h.level) :
    Handle fmtTime hp h ctx r write = ⟨.ok (), [], false⟩ := by
  unfold Handle
  rw [if_pos hlv]

/-- C6 witness: a Debug record against an Info-threshold handler. -/
theorem handle_below_threshold_noop_witness :
    Handle tinyTime [] exParent.1 ⟨0⟩ ⟨0, -4, "d", []⟩ okWrite = ⟨.ok (), [], false⟩ :=
  handle_below_threshold_noop tinyTime [] exParent.1 ⟨0⟩ ⟨0, -4, "d", []⟩ okWrite (by decide)

/-- C7: `Handle` returns an error exactly when the record is admitted and
the destination's write reports one, and that error is the underlying
cause wrapped with the `failed to write log: ` context; it returns success
exactly when the record is below threshold or the write succeeds.  (The
other operations — `Enabled`, `WithAttrs`, `WithGroup`,
`NewLogFormatHandler` — are total functions of the embedding by
construction, as in the source, which cannot fail in them.) -/
theorem handle_error_iff (fmtTime : String → Nat → String) (hp : Heap)
    (h : Handler) (ctx : Context) (r : Record) (write : String → Except String Unit) :
    ∀ s : String,
      ((Handle fmtTime hp h ctx r write).result = .error s ↔
        (h.level ≤ r.level ∧ ∃ e, write (formatLine fmtTime hp h r) = .error e ∧
          s = "failed to write log: " ++ e)) ∧
      ((Handle fmtTime hp h ctx r write).result = .ok () ↔
        (r.level < h.level ∨ ∃ u, write (formatLine fmtTime hp h r) = .ok u)) := by
  intro s
  unfold Handle
  by_cases hlv : r.level < h.level
  · rw [if_pos hlv]
    constructor
    · constructor
      · intro hres
        exact Except.noConfusion hres
      · rintro ⟨hle, -⟩
        exact absurd hlv (not_lt.mpr hle)
    · exact iff_of_true rfl (Or.inl hlv)
  · rw [if_neg hlv]
    rcases hw : write (formatLine fmtTime hp h r) with e | u
    · simp only [hw]
      constructor
      · constructor
        · intro hres
          cases hres
          exact ⟨not_lt.mp hlv, e, rfl, rfl⟩
        · rintro ⟨-, e', he', hs⟩
          cases he'
          rw [hs]
      · constructor
        · intro hres
          exact Except.noConfusion hres
        · rintro (hcon | ⟨u, hu⟩)
          · exact absurd hcon hlv
          · exact Except.noConfusion hu
    · simp only [hw]
      constructor
      · constructor
        · intro hres
          exact Except.noConfusion hres
        · rintro ⟨-, e', he', -⟩
          exact Except.noConfusion he'
      · constructor
        · intro _
          refine Or.inr ⟨u, ?_⟩
          trivial
        · intro _
          trivial

/-- C8: `Enabled` returns true exactly when the level meets or exceeds
the threshold; it is a pure function of the handler and the level (its
`RLock`/`RUnlock` pair in the source is balanced and guards no mutation,
so the handler's state is unchanged). -/
theorem enabled_iff (h : Handler) (ctx : Context) (level : Int) :
    Enabled h ctx level = true ↔ level ≥ h.level := by
  simp [Enabled, ge_iff_le]

/-- C9: the constructor substitutes the default layout — the Go reference
layout for `YYYY/MM/DD hh:mm:ss` on a 24-hour clock — exactly when
`timeFormat` is empty (a non-empty layout is stored unchanged), and the
root handler starts with no fixed attributes, an empty group, and the
given threshold. -/
theorem new_handler_defaults (level : Int) (writerId : Nat) (timeFormat : String)
    (s : GoState) :
    ((NewLogFormatHandler level writerId timeFormat s).1.timeFormat
        = if timeFormat = "" then DefaultTimeFormat else timeFormat) ∧
    DefaultTimeFormat = "2006/01/02 15:04:05" ∧
    (∀ hp : Heap, sliceList hp (NewLogFormatHandler level writerId timeFormat s).1.attrs = []) ∧
    (NewLogFormatHandler level writerId timeFormat s).1.group = "" ∧
    (NewLogFormatHandler level writerId timeFormat s).1.level = level :=
  ⟨rfl, rfl, fun _ => rfl, rfl, rfl⟩

/-- C10: neither `Handle` nor `Enabled` inspects its `context.Context`
argument: any two context values produce identical traces and identical
answers. -/
theorem context_ignored (fmtTime : String → Nat → String) (hp : Heap) (h : Handler)
    (r : Record) (write : String → Except String Unit) (level : Int)
    (ctx1 ctx2 : Context) :
    Handle fmtTime hp h ctx1 r write = Handle fmtTime hp h ctx2 r write ∧
    Enabled h ctx1 level = Enabled h ctx2 level :=
  ⟨rfl, rfl⟩

end Sloghandler
